import Mathlib

/-!
Shallow embedding of the build-safari pipeline
(apps/extension/scripts/build-safari/src/build_safari) and proofs about it.

The embedding covers:
- the configuration model of config.py (BuildConfig and its derived
  properties, DeveloperConfig validation);
- the step-selection predicates of each step class (should_run) and
  get_steps of runner.py;
- the run_build orchestration loop of runner.py, with step execution
  abstracted to an outcome (success, BuildStepError, or an unexpected
  exception carrying a message);
- the main entry point of main.py (validation gate and exit code);
- the OutputProcessor of utils/terminal.py over lists of characters;
- the retry loop of StapleStep.execute in steps/notarize.py;
- the text fixups of XcodeConvertStep in steps/xcode.py, built on a model
  of the left-to-right non-overlapping replace-all used by Python.
-/

set_option autoImplicit false

namespace BuildSafari

/-! ### Configuration model (config.py) -/

/-- The build_type literal of BuildConfig: "dmg", "rebuild-dmg" or "appstore". -/
inductive BuildType where
  | dmg : BuildType
  | rebuildDmg : BuildType
  | appstore : BuildType
deriving DecidableEq

/-- StepStatus enum from steps/base.py. -/
inductive StepStatus where
  | pending : StepStatus
  | running : StepStatus
  | success : StepStatus
  | failed : StepStatus
  | skipped : StepStatus
deriving DecidableEq

/-- DMG appearance configuration (config.py DMGConfig); paths are strings. -/
structure DMGConfig where
  title : String
  icon : String
  background : String
  icon_size : Nat
  text_size : Nat
deriving DecidableEq

/-- App metadata from pyproject.toml (config.py AppConfig). -/
structure AppConfig where
  app_name : String
  bundle_id : String
  build_dir : String
  dmg : DMGConfig
  max_log_files : Nat
deriving DecidableEq

/-- Developer identity from environment variables (config.py DeveloperConfig).
Unset environment variables are `none`; set-but-empty are `some ""`. -/
structure DeveloperConfig where
  name : String
  team_id : String
  apple_id : Option String
  app_specific_password : Option String
deriving DecidableEq

/-- Python truthiness test for an optional string: falsy when absent or empty. -/
def pyFalsy : Option String → Bool
  | none => true
  | some s => s.isEmpty

/-- DeveloperConfig.validate_for_signing: missing variables for signed builds. -/
def DeveloperConfig.validate_for_signing (d : DeveloperConfig) : List String :=
  (if d.name.isEmpty then [("APPLE_DEVELOPER_NAME")] else []) ++
  (if d.team_id.isEmpty then [("APPLE_TEAM_ID")] else [])

/-- DeveloperConfig.validate_for_notarization: missing variables for notarization. -/
def DeveloperConfig.validate_for_notarization (d : DeveloperConfig) : List String :=
  d.validate_for_signing ++
  (if pyFalsy d.apple_id then [("APPLE_ID")] else []) ++
  (if pyFalsy d.app_specific_password then [("APPLE_APP_SPECIFIC_PASSWORD")] else [])

/-- Runtime configuration (config.py BuildConfig); paths are strings. -/
structure BuildConfig where
  app : AppConfig
  developer : DeveloperConfig
  build_type : BuildType
  signed : Bool
  project_root : String
  script_dir : String
deriving DecidableEq

/-- BuildConfig.build_dir property. -/
def BuildConfig.build_dir (c : BuildConfig) : String :=
  c.project_root ++ ("/") ++ c.app.build_dir

/-- BuildConfig.xcode_dir property. -/
def BuildConfig.xcode_dir (c : BuildConfig) : String :=
  c.build_dir ++ ("/xcode")

/-- BuildConfig.app_path property. -/
def BuildConfig.app_path (c : BuildConfig) : String :=
  c.xcode_dir ++ ("/DerivedData/Build/Products/Release/") ++ c.app.app_name ++ (".app")

/-- BuildConfig.output_file property. -/
def BuildConfig.output_file (c : BuildConfig) : String :=
  if c.build_type = BuildType.appstore then ("stream-keys-safari-appstore.pkg")
  else ("stream-keys-safari.dmg")

/-- BuildConfig.output_path property. -/
def BuildConfig.output_path (c : BuildConfig) : String :=
  c.build_dir ++ ("/") ++ c.output_file

/-- BuildConfig.total_steps property. -/
def BuildConfig.total_steps (c : BuildConfig) : Nat :=
  if c.build_type = BuildType.rebuildDmg then (if c.signed then 3 else 1)
  else if c.build_type = BuildType.appstore then 5
  else if c.signed then 7 else 4

/-- BuildConfig.build_description property. -/
def BuildConfig.build_description (c : BuildConfig) : String :=
  if c.build_type = BuildType.rebuildDmg then
    (if c.signed then ("Rebuild DMG (signed)") else ("Rebuild DMG (unsigned)"))
  else if c.build_type = BuildType.appstore then ("App Store Package")
  else if c.signed then ("Signed + Notarized DMG")
  else ("Local DMG (unsigned)")

/-- The list of missing credential variables validate checks for a signed
build: notarization credentials for dmg and rebuild-dmg, signing credentials
for appstore. -/
def BuildConfig.missingCredentials (c : BuildConfig) : List String :=
  if c.build_type = BuildType.dmg ∨ c.build_type = BuildType.rebuildDmg then
    c.developer.validate_for_notarization
  else
    c.developer.validate_for_signing

/-- BuildConfig.validate. The filesystem test app_path.exists() is abstracted
into the boolean argument app_path_exists. -/
def BuildConfig.validate (c : BuildConfig) (app_path_exists : Bool) : List String :=
  (if c.signed then
    (let missing := c.missingCredentials
     if missing.isEmpty then []
     else [("Missing required environment variables: ") ++ String.intercalate (", ") missing])
   else []) ++
  (if c.build_type = BuildType.rebuildDmg ∧ app_path_exists = false then
    [("App not found at ") ++ c.app_path]
   else [])

/-! ### Step selection (runner.py get_steps, should_run of each step class) -/

/-- The nine step classes, in the order of the master list in get_steps. -/
inductive StepId where
  | vite : StepId
  | xcodeConvert : StepId
  | xcodeBuild : StepId
  | rebuildDmgVerify : StepId
  | signingVerify : StepId
  | dmgCreate : StepId
  | notarize : StepId
  | staple : StepId
  | appStorePackage : StepId
deriving DecidableEq

/-- The name each step class passes to BuildStep.init. -/
def stepName : StepId → String
  | .vite => ("Building Safari extension...")
  | .xcodeConvert => ("Converting to Xcode project...")
  | .xcodeBuild => ("Building app with Xcode...")
  | .rebuildDmgVerify => ("Verifying existing code signature...")
  | .signingVerify => ("Verifying code signature...")
  | .dmgCreate => ("Creating styled DMG...")
  | .notarize => ("Submitting for notarization...")
  | .staple => ("Stapling notarization ticket...")
  | .appStorePackage => ("Creating signed installer package...")

/-- The should_run predicate of each step class. -/
def shouldRun (id : StepId) (c : BuildConfig) : Bool :=
  match id with
  | .vite => decide (c.build_type ≠ BuildType.rebuildDmg)
  | .xcodeConvert => decide (c.build_type ≠ BuildType.rebuildDmg)
  | .xcodeBuild => decide (c.build_type ≠ BuildType.rebuildDmg)
  | .rebuildDmgVerify => c.signed && decide (c.build_type = BuildType.rebuildDmg)
  | .signingVerify => c.signed && decide (c.build_type ≠ BuildType.rebuildDmg)
  | .dmgCreate => decide (c.build_type = BuildType.dmg ∨ c.build_type = BuildType.rebuildDmg)
  | .notarize => c.signed && decide (c.build_type = BuildType.dmg ∨ c.build_type = BuildType.rebuildDmg)
  | .staple => c.signed && decide (c.build_type = BuildType.dmg ∨ c.build_type = BuildType.rebuildDmg)
  | .appStorePackage => decide (c.build_type = BuildType.appstore)

/-- The master list of all possible steps, in order (runner.py get_steps). -/
def allSteps : List StepId :=
  [.vite, .xcodeConvert, .xcodeBuild, .rebuildDmgVerify, .signingVerify,
   .dmgCreate, .notarize, .staple, .appStorePackage]

/-- runner.py get_steps: filter the master list by should_run. -/
def getSteps (c : BuildConfig) : List StepId :=
  allSteps.filter (fun id => shouldRun id c)

/-! ### The run_build loop (runner.py) -/

/-- Abstracted behaviour of one step.execute call: normal return,
a raised BuildStepError with its message, or an unexpected exception. -/
inductive StepOutcome where
  | ok : StepOutcome
  | stepErr : String → StepOutcome
  | unexpected : String → StepOutcome
deriving DecidableEq

/-- A step as seen by run_build: its name and what execute does. -/
structure RunStep where
  name : String
  outcome : StepOutcome
deriving DecidableEq

/-- How the for-loop of run_build terminated: ran to completion, exited via
break after a BuildStepError, or was aborted by an unexpected exception. -/
inductive LoopExit where
  | normal : LoopExit
  | broke : LoopExit
  | exn : String → LoopExit
deriving DecidableEq

/-- State at the end of the for-loop of run_build: step_results, the names of
steps whose execute was invoked, the error lines logged, current_step, and
how the loop exited. -/
structure LoopState where
  step_results : List (String × StepStatus)
  executed : List String
  errors : List String
  current_step : Nat
  exit : LoopExit
deriving DecidableEq

/-- The for-loop of run_build (runner.py lines 60-79): on ok record SUCCESS
and continue, on BuildStepError record FAILED, log the error and break, on an
unexpected exception abort the loop. -/
def buildLoop : List RunStep → Nat → List (String × StepStatus) → List String → List String → LoopState
  | [], cur, acc, exl, errs => ⟨acc, exl, errs, cur, .normal⟩
  | s :: rest, cur, acc, exl, errs =>
    match s.outcome with
    | .ok =>
        buildLoop rest (cur + 1) (acc ++ [(s.name, StepStatus.success)]) (exl ++ [s.name]) errs
    | .stepErr msg =>
        ⟨acc ++ [(s.name, StepStatus.failed)], exl ++ [s.name],
         errs ++ [s.name ++ (": ") ++ msg], cur + 1, .broke⟩
    | .unexpected msg =>
        ⟨acc, exl ++ [s.name], errs, cur + 1, .exn msg⟩

/-- Result of run_build: the summary rows handed to print_summary, the
returned success flag, the execute trace and the logged error lines. -/
structure RunResult where
  step_results : List (String × StepStatus)
  success : Bool
  executed : List String
  errors : List String
deriving DecidableEq

/-- runner.py run_build: run the loop; on normal exit or break, mark the
remaining steps PENDING; on an unexpected exception, log a generic error and
patch the entry of the in-flight step to FAILED (lines 81-98). -/
def runBuild (steps : List RunStep) : RunResult :=
  let st := buildLoop steps 0 [] [] []
  match st.exit with
  | .normal =>
      ⟨st.step_results ++ (steps.drop st.current_step).map (fun s => (s.name, StepStatus.pending)),
       true, st.executed, st.errors⟩
  | .broke =>
      ⟨st.step_results ++ (steps.drop st.current_step).map (fun s => (s.name, StepStatus.pending)),
       false, st.executed, st.errors⟩
  | .exn msg =>
      let errs := st.errors ++ [("Unexpected error: ") ++ msg]
      let results :=
        if 0 < st.current_step ∧ st.current_step ≤ steps.length then
          let nm := (steps.getD (st.current_step - 1) ⟨("") , .ok⟩).name
          if st.step_results.length < st.current_step then
            st.step_results ++ [(nm, StepStatus.failed)]
          else
            st.step_results.set (st.current_step - 1) (nm, StepStatus.failed)
        else st.step_results
      ⟨results, false, st.executed, errs⟩

/-- The arguments run_build passes to ui.print_summary (runner.py 100-106). -/
structure SummaryArgs where
  steps : List (String × StepStatus)
  success : Bool
  output_path : Option String
  build_description : String
deriving DecidableEq

/-- The final summary emitted by run_build for a given configuration. -/
def buildSummary (c : BuildConfig) (steps : List RunStep) : SummaryArgs :=
  let r := runBuild steps
  ⟨r.step_results, r.success,
   if r.success then some c.output_path else none, c.build_description⟩

/-! ### The entry point (main.py) -/

/-- Observable result of main: process exit code and the execute trace. -/
structure MainResult where
  exitCode : Nat
  executed : List String
deriving DecidableEq

/-- main.py main: validate the configuration; on errors exit 1 without
running any step; otherwise run the pipeline (both the TUI and the simple
path return 0 exactly when run_build returned True). Step execution is
abstracted into the oracle exec. -/
def mainRun (c : BuildConfig) (app_path_exists : Bool) (exec : StepId → StepOutcome) : MainResult :=
  let errors := c.validate app_path_exists
  if errors.isEmpty then
    let steps := (getSteps c).map (fun id => RunStep.mk (stepName id) (exec id))
    let r := runBuild steps
    ⟨if r.success then 0 else 1, r.executed⟩
  else
    ⟨1, []⟩

/-! ### OutputProcessor (utils/terminal.py), over lists of characters -/

/-- Carriage return. -/
def CR : Char := '\r'

/-- Line feed. -/
def LF : Char := '\n'

/-- Backspace. -/
def BS : Char := '\x08'

/-- The character loop of OutputProcessor.process: walk the text with the
current-line buffer, returning the completed lines and the new buffer.
The two-element pattern realises the one-character lookahead used for the
carriage-return case (an isolated final CR behaves like CR not followed
by LF, as in the source where i + 1 < len(text) fails). -/
def procGo : List Char → List Char → List (List Char) × List Char
  | [], cur => ([], cur)
  | [c], cur =>
      if c = CR then ([], [])
      else if c = LF then ([cur], [])
      else if c = BS then ([], cur.dropLast)
      else ([], cur ++ [c])
  | c :: c2 :: rest, cur =>
      if c = CR then
        (if c2 = LF then
          let r := procGo rest []
          (cur :: r.1, r.2)
        else
          procGo (c2 :: rest) [])
      else if c = LF then
        let r := procGo (c2 :: rest) []
        (cur :: r.1, r.2)
      else if c = BS then
        procGo (c2 :: rest) cur.dropLast
      else
        procGo (c2 :: rest) (cur ++ [c])

/-- Python str.join with the given separator. -/
def pyJoin (sep : List Char) : List (List Char) → List Char
  | [] => []
  | [l] => l
  | l :: l2 :: rest => l ++ sep ++ pyJoin sep (l2 :: rest)

/-- The return value of process: newline-join the completed lines and append
a trailing newline, or the empty string when no line was completed. -/
def joinLines (ls : List (List Char)) : List Char :=
  if ls.isEmpty then [] else pyJoin [LF] ls ++ [LF]

/-- OutputProcessor state: the current_line buffer. -/
structure OutputProcessor where
  current_line : List Char
deriving DecidableEq

/-- OutputProcessor.process: consume raw text, return completed lines and the
updated processor. -/
def OutputProcessor.process (p : OutputProcessor) (text : List Char) :
    List Char × OutputProcessor :=
  let r := procGo text p.current_line
  (joinLines r.1, ⟨r.2⟩)

/-- OutputProcessor.flush: return the pending line with a newline appended
and clear the buffer; empty output when nothing is pending. -/
def OutputProcessor.flush (p : OutputProcessor) : List Char × OutputProcessor :=
  if p.current_line.isEmpty then ([], p)
  else (p.current_line ++ [LF], ⟨[]⟩)

/-- Feed a list of chunks to successive process calls, concatenating the
returned display text. -/
def feedChunks (p : OutputProcessor) : List (List Char) → List Char × OutputProcessor
  | [] => ([], p)
  | c :: cs =>
      let r := p.process c
      let rest := feedChunks r.2 cs
      (r.1 ++ rest.1, rest.2)

/-- Total display text of a chunked stream: all process outputs followed by
the final flush. -/
def runChunks (p : OutputProcessor) (chunks : List (List Char)) : List Char :=
  let r := feedChunks p chunks
  r.1 ++ r.2.flush.1

/-- Does the list start with the given character? -/
def headIs (ch : Char) : List Char → Bool
  | [] => false
  | c :: _ => decide (c = ch)

/-- Does the list end with the given character? -/
def lastIs (ch : Char) (l : List Char) : Bool :=
  decide (l.getLast? = some ch)

/-- A chunking is good when no chunk boundary falls between a carriage
return and an immediately following line feed of the underlying stream. -/
def goodChunks : List (List Char) → Bool
  | [] => true
  | c :: cs => (!(lastIs CR c && headIs LF cs.flatten)) && goodChunks cs

/-! ### StapleStep retry loop (steps/notarize.py) -/

/-- StapleStep.MAX_RETRIES. -/
def MAX_RETRIES : Nat := 5

/-- StapleStep.RETRY_DELAY (seconds). -/
def RETRY_DELAY : Nat := 15

/-- How StapleStep.execute ends: normal return, or a BuildStepError carrying
the exit code of the last attempt. -/
inductive StapleOutcome where
  | ok : StapleOutcome
  | err : Int → StapleOutcome
deriving DecidableEq

/-- Observable behaviour of StapleStep.execute: number of stapler
invocations, the durations of all asyncio.sleep calls in order, and how the
step ended. -/
structure StapleResult where
  attempts : Nat
  sleeps : List Nat
  outcome : StapleOutcome
deriving DecidableEq

/-- The for-loop of StapleStep.execute over the attempt numbers: return on
exit code 0; otherwise sleep RETRY_DELAY and continue while attempts remain,
or raise carrying the last exit code. The function code gives the stapler
exit code of each attempt number. -/
def stapleGo (code : Nat → Int) : List Nat → Nat → List Nat → StapleResult
  | [], att, sl => ⟨att, sl, .ok⟩
  | a :: rest, att, sl =>
      if code a = 0 then ⟨att + 1, sl, .ok⟩
      else if a < MAX_RETRIES then stapleGo code rest (att + 1) (sl ++ [RETRY_DELAY])
      else ⟨att + 1, sl, .err (code a)⟩

/-- StapleStep.execute: an initial RETRY_DELAY sleep for ticket propagation,
then attempts 1..MAX_RETRIES. -/
def stapleExecute (code : Nat → Int) : StapleResult :=
  stapleGo code ((List.range MAX_RETRIES).map (fun n => n + 1)) 0 [RETRY_DELAY]

/-! ### Python str.replace and the XcodeConvertStep fixups (steps/xcode.py) -/

/-- Boolean test that the first list is an initial segment of the second. -/
def isPre : List Char → List Char → Bool
  | [], _ => true
  | _ :: _, [] => false
  | a :: as, b :: bs => decide (a = b) && isPre as bs

/-- Boolean test that pat occurs contiguously somewhere in the list. -/
def occurs (pat : List Char) : List Char → Bool
  | [] => pat.isEmpty
  | c :: rest => isPre pat (c :: rest) || occurs pat rest

/-- Python str.replace for a nonempty pattern: scan left to right, replacing
each non-overlapping occurrence of pat by rep. Recursion is on a fuel that
starts at the length of the text (the scan advances at least one character
per step, so the fuel never runs out). -/
def replaceAllFuel (pat rep : List Char) : Nat → List Char → List Char
  | 0, s => s
  | _ + 1, [] => []
  | fuel + 1, c :: rest =>
      if isPre pat (c :: rest) then
        rep ++ replaceAllFuel pat rep fuel ((c :: rest).drop pat.length)
      else
        c :: replaceAllFuel pat rep fuel rest

/-- Python str.replace for a nonempty pattern. -/
def replaceAll (pat rep s : List Char) : List Char :=
  replaceAllFuel pat rep s.length s

/-- The bundle identifier the converter derives from the app name. -/
def WRONG_BUNDLE_ID : List Char := ("com.getstreamkeys.Stream-Keys").toList

/-- The configured bundle identifier. -/
def RIGHT_BUNDLE_ID : List Char := ("com.getstreamkeys.StreamKeys").toList

/-- The tail of WRONG_BUNDLE_ID after its first character. -/
def WRONG_TAIL : List Char := ("om.getstreamkeys.Stream-Keys").toList

/-- The tail of RIGHT_BUNDLE_ID after its first character. -/
def RIGHT_TAIL : List Char := ("om.getstreamkeys.StreamKeys").toList

/-- No character of the list is a lowercase c (the first character of both
bundle identifiers). -/
def noC (q : List Char) : Bool := q.all (fun ch => decide (ch ≠ 'c'))

/-- XcodeConvertStep fix_bundle_identifier applied to the file content. -/
def fix_bundle_identifier (content : List Char) : List Char :=
  replaceAll WRONG_BUNDLE_ID RIGHT_BUNDLE_ID content

/-- The INFOPLIST_FILE anchor of the macOS App target. -/
def APP_ANCHOR : List Char :=
  ("INFOPLIST_FILE = \"macOS (App)/Info.plist\";").toList

/-- The text configure_entitlements substitutes for the App anchor. -/
def APP_INSERT : List Char :=
  ("CODE_SIGN_ENTITLEMENTS = \"macOS (App)/App.entitlements\";\n\t\t\t\tINFOPLIST_FILE = \"macOS (App)/Info.plist\";").toList

/-- The INFOPLIST_FILE anchor of the macOS Extension target. -/
def EXT_ANCHOR : List Char :=
  ("INFOPLIST_FILE = \"macOS (Extension)/Info.plist\";").toList

/-- The text configure_entitlements substitutes for the Extension anchor. -/
def EXT_INSERT : List Char :=
  ("CODE_SIGN_ENTITLEMENTS = \"macOS (Extension)/Extension.entitlements\";\n\t\t\t\tINFOPLIST_FILE = \"macOS (Extension)/Info.plist\";").toList

/-- XcodeConvertStep configure_entitlements applied to the file content. -/
def configure_entitlements (content : List Char) : List Char :=
  replaceAll EXT_ANCHOR EXT_INSERT (replaceAll APP_ANCHOR APP_INSERT content)

/-- The two project.pbxproj fixups of XcodeConvertStep in the order execute
applies them: fix_bundle_identifier, then configure_entitlements. -/
def fixupProject (content : List Char) : List Char :=
  configure_entitlements (fix_bundle_identifier content)

/-! ### Lemmas about the run_build loop -/

theorem buildLoop_ok_pre (pre : List RunStep) (h : ∀ s ∈ pre, s.outcome = StepOutcome.ok) :
    ∀ (rest : List RunStep) (cur : Nat) (acc : List (String × StepStatus)) (exl errs : List String),
      buildLoop (pre ++ rest) cur acc exl errs =
        buildLoop rest (cur + pre.length)
          (acc ++ pre.map (fun s => (s.name, StepStatus.success)))
          (exl ++ pre.map (fun s => s.name)) errs := by
  induction pre with
  | nil => intro rest cur acc exl errs; simp
  | cons s pre ih =>
      intro rest cur acc exl errs
      have hs : s.outcome = StepOutcome.ok := h s (List.mem_cons_self s pre)
      have hpre : ∀ t ∈ pre, t.outcome = StepOutcome.ok :=
        fun t ht => h t (List.mem_cons_of_mem s ht)
      simp only [List.cons_append, buildLoop, hs, List.append_eq]
      rw [ih hpre rest (cur + 1) (acc ++ [(s.name, StepStatus.success)]) (exl ++ [s.name]) errs]
      simp [List.append_assoc, Nat.add_assoc, Nat.add_comm, Nat.add_left_comm]

theorem runBuild_all_ok (steps : List RunStep) (h : ∀ s ∈ steps, s.outcome = StepOutcome.ok) :
    runBuild steps =
      ⟨steps.map (fun s => (s.name, StepStatus.success)), true,
       steps.map (fun s => s.name), []⟩ := by
  have h0 : buildLoop steps 0 [] [] [] =
      ⟨steps.map (fun s => (s.name, StepStatus.success)),
       steps.map (fun s => s.name), [], steps.length, LoopExit.normal⟩ := by
    have h1 := buildLoop_ok_pre steps h [] 0 [] [] []
    simpa [buildLoop] using h1
  simp [runBuild, h0, List.drop_length]

theorem getD_append_cons (pre post : List RunStep) (f d : RunStep) :
    (pre ++ f :: post).getD pre.length d = f := by
  induction pre with
  | nil => rfl
  | cons s pre ih => simpa [List.getD_cons_succ] using ih

/-- Claim C1: in any pipeline decomposed as pre ++ [f] ++ post where all
steps of pre succeed and f raises a BuildStepError, run_build returns False,
execute is invoked exactly on the steps of pre and on f (never on post), and
the summary lists, in pipeline order, every pre step as SUCCESS, f as FAILED
and every post step as PENDING. -/
theorem claim1_step_error_halts (pre post : List RunStep) (f : RunStep) (msg : String)
    (hpre : ∀ s ∈ pre, s.outcome = StepOutcome.ok)
    (hf : f.outcome = StepOutcome.stepErr msg) :
    runBuild (pre ++ f :: post) =
      ⟨pre.map (fun s => (s.name, StepStatus.success)) ++
         (f.name, StepStatus.failed) :: post.map (fun s => (s.name, StepStatus.pending)),
       false,
       pre.map (fun s => s.name) ++ [f.name],
       [f.name ++ (": ") ++ msg]⟩ := by
  have h0 : buildLoop (pre ++ f :: post) 0 [] [] [] =
      ⟨pre.map (fun s => (s.name, StepStatus.success)) ++ [(f.name, StepStatus.failed)],
       pre.map (fun s => s.name) ++ [f.name],
       [f.name ++ (": ") ++ msg],
       pre.length + 1, LoopExit.broke⟩ := by
    rw [buildLoop_ok_pre pre hpre (f :: post) 0 [] [] []]
    simp [buildLoop, hf]
  have hdrop : (pre ++ f :: post).drop (pre.length + 1) = post := by
    rw [show pre ++ f :: post = (pre ++ [f]) ++ post from by simp]
    rw [show pre.length + 1 = (pre ++ [f]).length from by simp]
    exact List.drop_left _ _
  simp [runBuild, h0, hdrop, List.append_assoc]

/-- Witness for C1 on a concrete three-step pipeline whose middle step
raises a BuildStepError. -/
theorem claim1_step_error_halts_witness :
    runBuild [⟨("a"), StepOutcome.ok⟩, ⟨("b"), StepOutcome.stepErr ("boom")⟩,
              ⟨("c"), StepOutcome.ok⟩] =
      ⟨[(("a"), StepStatus.success), (("b"), StepStatus.failed), (("c"), StepStatus.pending)],
       false, [("a"), ("b")], [("b: boom")]⟩ :=
  (claim1_step_error_halts [⟨("a"), StepOutcome.ok⟩] [⟨("c"), StepOutcome.ok⟩]
    ⟨("b"), StepOutcome.stepErr ("boom")⟩ ("boom") (by decide) rfl).trans (by decide)

/-- Counterexample to C2 as stated: with two selected steps where the first
raises an unexpected (non-BuildStepError) exception, the summary passed to
print_summary has a single row — there is no PENDING row for the second
step, so the summary does not contain one entry per selected step. -/
theorem claim2_counterexample :
    (runBuild [⟨("a"), StepOutcome.unexpected ("kaboom")⟩,
               ⟨("b"), StepOutcome.ok⟩]).step_results = [(("a"), StepStatus.failed)]
    ∧ (runBuild [⟨("a"), StepOutcome.unexpected ("kaboom")⟩,
                 ⟨("b"), StepOutcome.ok⟩]).step_results.length ≠ 2 := by
  decide

/-- Claim C2 (amended): when run_build halts on an unexpected failure at
step k, it logs the generic error line, returns False and marks the
in-flight step FAILED, but the summary contains rows only for steps 1..k
(1..k-1 SUCCESS, k FAILED); the steps after the in-flight one are absent
from the summary instead of being PENDING rows. -/
theorem claim2_unexpected_failure (pre post : List RunStep) (f : RunStep) (msg : String)
    (hpre : ∀ s ∈ pre, s.outcome = StepOutcome.ok)
    (hf : f.outcome = StepOutcome.unexpected msg) :
    runBuild (pre ++ f :: post) =
      ⟨pre.map (fun s => (s.name, StepStatus.success)) ++ [(f.name, StepStatus.failed)],
       false,
       pre.map (fun s => s.name) ++ [f.name],
       [("Unexpected error: ") ++ msg]⟩ := by
  have h0 : buildLoop (pre ++ f :: post) 0 [] [] [] =
      ⟨pre.map (fun s => (s.name, StepStatus.success)),
       pre.map (fun s => s.name) ++ [f.name],
       [],
       pre.length + 1, LoopExit.exn msg⟩ := by
    rw [buildLoop_ok_pre pre hpre (f :: post) 0 [] [] []]
    simp [buildLoop, hf]
  have hcond : 0 < pre.length + 1 ∧ pre.length + 1 ≤ (pre ++ f :: post).length := by
    constructor
    · omega
    · simp
  have hlen : (pre.map (fun s => (s.name, StepStatus.success))).length < pre.length + 1 := by
    simp
  simp only [runBuild, h0, hcond, hlen, if_true, if_pos]
  simp [hcond, hlen]
  congr 1
  rw [List.getElem_append_right (Nat.le_refl pre.length)]
  simp

/-- Witness for the amended C2 on a concrete three-step pipeline whose
middle step raises an unexpected exception. -/
theorem claim2_unexpected_failure_witness :
    runBuild [⟨("a"), StepOutcome.ok⟩, ⟨("b"), StepOutcome.unexpected ("kaboom")⟩,
              ⟨("c"), StepOutcome.ok⟩] =
      ⟨[(("a"), StepStatus.success), (("b"), StepStatus.failed)],
       false, [("a"), ("b")], [("Unexpected error: kaboom")]⟩ :=
  (claim2_unexpected_failure [⟨("a"), StepOutcome.ok⟩] [⟨("c"), StepOutcome.ok⟩]
    ⟨("b"), StepOutcome.unexpected ("kaboom")⟩ ("kaboom") (by decide) rfl).trans (by decide)

/-- Claim C7 (code bug): total_steps disagrees with the length of the
filtered get_steps pipeline. For signed rebuild-dmg builds, total_steps is 3
but get_steps selects 4 steps (RebuildDMGVerify, DMGCreate, Notarize,
Staple); for an unsigned appstore configuration, total_steps is 5 but
get_steps selects 4. The remaining four combinations agree. -/
theorem claim7_total_steps_mismatch (c : BuildConfig) :
    (c.build_type = BuildType.rebuildDmg → c.signed = true →
      c.total_steps = 3 ∧ (getSteps c).length = 4)
    ∧ (c.build_type = BuildType.appstore → c.signed = false →
      c.total_steps = 5 ∧ (getSteps c).length = 4)
    ∧ (c.build_type = BuildType.dmg → (getSteps c).length = c.total_steps)
    ∧ (c.build_type = BuildType.rebuildDmg → c.signed = false →
      (getSteps c).length = c.total_steps)
    ∧ (c.build_type = BuildType.appstore → c.signed = true →
      (getSteps c).length = c.total_steps) := by
  refine ⟨fun h1 h2 => ?_, fun h1 h2 => ?_, fun h1 => ?_, fun h1 h2 => ?_, fun h1 h2 => ?_⟩
  · simp [BuildConfig.total_steps, getSteps, allSteps, shouldRun, List.filter, h1, h2]
  · simp [BuildConfig.total_steps, getSteps, allSteps, shouldRun, List.filter, h1, h2]
  · rcases h2 : c.signed <;>
      simp [BuildConfig.total_steps, getSteps, allSteps, shouldRun, List.filter, h1, h2]
  · simp [BuildConfig.total_steps, getSteps, allSteps, shouldRun, List.filter, h1, h2]
  · simp [BuildConfig.total_steps, getSteps, allSteps, shouldRun, List.filter, h1, h2]

/-- Witness for C7 at the failing input: a concrete configuration with
build_type rebuild-dmg and signed true, where total_steps evaluates to 3
while the selected pipeline has 4 steps. -/
theorem claim7_total_steps_mismatch_witness :
    BuildConfig.total_steps
        ⟨⟨("Stream Keys"), ("com.getstreamkeys.StreamKeys"), ("dist/safari-build"),
          ⟨("Stream Keys"), ("assets/icon.icns"), ("assets/bg.png"), 128, 12⟩, 5⟩,
         ⟨("Dev Name"), ("TEAMID123"), some ("dev@example.com"), some ("secret")⟩,
         BuildType.rebuildDmg, true, ("/repo/apps/extension"),
         ("/repo/apps/extension/scripts/build-safari")⟩ = 3
    ∧ (getSteps
        ⟨⟨("Stream Keys"), ("com.getstreamkeys.StreamKeys"), ("dist/safari-build"),
          ⟨("Stream Keys"), ("assets/icon.icns"), ("assets/bg.png"), 128, 12⟩, 5⟩,
         ⟨("Dev Name"), ("TEAMID123"), some ("dev@example.com"), some ("secret")⟩,
         BuildType.rebuildDmg, true, ("/repo/apps/extension"),
         ("/repo/apps/extension/scripts/build-safari")⟩).length = 4 :=
  (claim7_total_steps_mismatch _).1 rfl rfl

/-- Claim C8: the selected pipeline is a function of (build_type, signed)
only: two configurations agreeing on those two fields get the same steps in
the same order, whatever their app metadata, developer identity and paths. -/
theorem claim8_selection_invariance (c1 c2 : BuildConfig)
    (hb : c1.build_type = c2.build_type) (hs : c1.signed = c2.signed) :
    getSteps c1 = getSteps c2 := by
  unfold getSteps
  apply List.filter_congr
  intro id _
  cases id <;> simp [shouldRun, hb, hs]

/-- Witness for C8: two configurations sharing only (dmg, signed) and
differing in every other field select the same pipeline. -/
theorem claim8_selection_invariance_witness :
    getSteps
        ⟨⟨("Stream Keys"), ("com.getstreamkeys.StreamKeys"), ("dist/safari-build"),
          ⟨("Stream Keys"), ("assets/icon.icns"), ("assets/bg.png"), 128, 12⟩, 5⟩,
         ⟨("Dev Name"), ("TEAMID123"), some ("dev@example.com"), some ("secret")⟩,
         BuildType.dmg, true, ("/repo/apps/extension"),
         ("/repo/apps/extension/scripts/build-safari")⟩ =
      getSteps
        ⟨⟨("Other App"), ("com.other.bundle"), ("out"),
          ⟨("Other"), ("i.icns"), ("b.png"), 64, 10⟩, 2⟩,
         ⟨(""), (""), none, none⟩,
         BuildType.dmg, true, ("/elsewhere"), ("/elsewhere/scripts")⟩ :=
  claim8_selection_invariance _ _ rfl rfl

/-- Claim C9: for every unsigned dmg configuration, get_steps selects
exactly Vite build, Xcode convert, Xcode build and DMG create in that
order; the count matches total_steps (4); and when all four steps succeed,
run_build succeeds and the printed summary carries success together with
the DMG output path. -/
theorem claim9_unsigned_dmg (c : BuildConfig)
    (h1 : c.build_type = BuildType.dmg) (h2 : c.signed = false) :
    getSteps c = [StepId.vite, StepId.xcodeConvert, StepId.xcodeBuild, StepId.dmgCreate]
    ∧ (getSteps c).length = c.total_steps
    ∧ c.total_steps = 4
    ∧ c.output_file = ("stream-keys-safari.dmg")
    ∧ buildSummary c ((getSteps c).map (fun id => RunStep.mk (stepName id) StepOutcome.ok)) =
        ⟨(getSteps c).map (fun id => (stepName id, StepStatus.success)), true,
         some c.output_path, c.build_description⟩ := by
  have hsteps : getSteps c =
      [StepId.vite, StepId.xcodeConvert, StepId.xcodeBuild, StepId.dmgCreate] := by
    simp [getSteps, allSteps, shouldRun, List.filter, h1, h2]
  have hok : ∀ s ∈ (getSteps c).map (fun id => RunStep.mk (stepName id) StepOutcome.ok),
      s.outcome = StepOutcome.ok := by
    intro s hs
    rcases List.mem_map.mp hs with ⟨id, _, rfl⟩
    rfl
  have hrun := runBuild_all_ok _ hok
  refine ⟨hsteps, ?_, ?_, ?_, ?_⟩
  · rw [hsteps]
    simp [BuildConfig.total_steps, h1, h2]
  · simp [BuildConfig.total_steps, h1, h2]
  · simp [BuildConfig.output_file, h1]
  · simp [buildSummary, hrun, List.map_map, Function.comp]

/-- Witness for C9 at a concrete unsigned dmg configuration. -/
theorem claim9_unsigned_dmg_witness :
    getSteps
        ⟨⟨("Stream Keys"), ("com.getstreamkeys.StreamKeys"), ("dist/safari-build"),
          ⟨("Stream Keys"), ("assets/icon.icns"), ("assets/bg.png"), 128, 12⟩, 5⟩,
         ⟨("Dev Name"), ("TEAMID123"), some ("dev@example.com"), some ("secret")⟩,
         BuildType.dmg, false, ("/repo/apps/extension"),
         ("/repo/apps/extension/scripts/build-safari")⟩ =
      [StepId.vite, StepId.xcodeConvert, StepId.xcodeBuild, StepId.dmgCreate]
    ∧ (buildSummary
        ⟨⟨("Stream Keys"), ("com.getstreamkeys.StreamKeys"), ("dist/safari-build"),
          ⟨("Stream Keys"), ("assets/icon.icns"), ("assets/bg.png"), 128, 12⟩, 5⟩,
         ⟨("Dev Name"), ("TEAMID123"), some ("dev@example.com"), some ("secret")⟩,
         BuildType.dmg, false, ("/repo/apps/extension"),
         ("/repo/apps/extension/scripts/build-safari")⟩
        ((getSteps
        ⟨⟨("Stream Keys"), ("com.getstreamkeys.StreamKeys"), ("dist/safari-build"),
          ⟨("Stream Keys"), ("assets/icon.icns"), ("assets/bg.png"), 128, 12⟩, 5⟩,
         ⟨("Dev Name"), ("TEAMID123"), some ("dev@example.com"), some ("secret")⟩,
         BuildType.dmg, false, ("/repo/apps/extension"),
         ("/repo/apps/extension/scripts/build-safari")⟩).map
          (fun id => RunStep.mk (stepName id) StepOutcome.ok))).success = true :=
  ⟨(claim9_unsigned_dmg _ rfl rfl).1,
   by rw [(claim9_unsigned_dmg _ rfl rfl).2.2.2.2]⟩

/-! ### Lemmas for the exit-code claim -/

theorem buildLoop_exit_normal_iff :
    ∀ (steps : List RunStep) (cur : Nat) (acc : List (String × StepStatus)) (exl errs : List String),
      (buildLoop steps cur acc exl errs).exit = LoopExit.normal ↔
        ∀ s ∈ steps, s.outcome = StepOutcome.ok := by
  intro steps
  induction steps with
  | nil => intro cur acc exl errs; simp [buildLoop]
  | cons s rest ih =>
      intro cur acc exl errs
      rcases hs : s.outcome with _ | msg | msg
      · simp [buildLoop, hs, ih]
      · simp [buildLoop, hs]
      · simp [buildLoop, hs]

theorem runBuild_success_iff (steps : List RunStep) :
    (runBuild steps).success = true ↔ ∀ s ∈ steps, s.outcome = StepOutcome.ok := by
  rw [← buildLoop_exit_normal_iff steps 0 [] [] []]
  rcases hex : (buildLoop steps 0 [] [] []).exit with _ | _ | msg <;>
    simp [runBuild, hex]

theorem validate_ne_nil_iff (c : BuildConfig) (ape : Bool) :
    c.validate ape ≠ [] ↔
      (c.signed = true ∧ c.missingCredentials ≠ []) ∨
      (c.build_type = BuildType.rebuildDmg ∧ ape = false) := by
  rcases hs : c.signed <;> by_cases hm : c.missingCredentials = [] <;>
    by_cases hb : c.build_type = BuildType.rebuildDmg <;> rcases hape : ape <;>
      simp [BuildConfig.validate, hs, hm, hb, hape]

/-- Claim C10: the modelled process exit code is 0 exactly when validation
passes and every selected step succeeds; it is always 0 or 1; when
validation fails the exit code is 1 and no step is ever started; and
validation fails exactly when a signed build misses required credentials or
a rebuild-dmg is requested while the prior app artifact does not exist. -/
theorem claim10_exit_code (c : BuildConfig) (ape : Bool) (exec : StepId → StepOutcome) :
    ((mainRun c ape exec).exitCode = 0 ↔
      (c.validate ape = [] ∧ ∀ id ∈ getSteps c, exec id = StepOutcome.ok))
    ∧ ((mainRun c ape exec).exitCode = 0 ∨ (mainRun c ape exec).exitCode = 1)
    ∧ (c.validate ape ≠ [] → mainRun c ape exec = ⟨1, []⟩)
    ∧ (c.validate ape ≠ [] ↔
      (c.signed = true ∧ c.missingCredentials ≠ []) ∨
      (c.build_type = BuildType.rebuildDmg ∧ ape = false)) := by
  have hforall :
      (∀ s ∈ (getSteps c).map (fun id => RunStep.mk (stepName id) (exec id)),
        s.outcome = StepOutcome.ok) ↔
      (∀ id ∈ getSteps c, exec id = StepOutcome.ok) := by
    constructor
    · intro h id hid
      exact h (RunStep.mk (stepName id) (exec id)) (List.mem_map_of_mem _ hid)
    · intro h s hs
      rcases List.mem_map.mp hs with ⟨id, hid, rfl⟩
      exact h id hid
  by_cases he : c.validate ape = []
  · have hemp : (c.validate ape).isEmpty = true := by simp [he]
    have hmain : mainRun c ape exec =
        ⟨if (runBuild ((getSteps c).map (fun id => RunStep.mk (stepName id) (exec id)))).success
          then 0 else 1,
         (runBuild ((getSteps c).map (fun id => RunStep.mk (stepName id) (exec id)))).executed⟩ := by
      simp [mainRun, hemp]
    refine ⟨?_, ?_, fun hne => absurd he hne, validate_ne_nil_iff c ape⟩
    · rw [hmain]
      rcases hsucc : (runBuild ((getSteps c).map (fun id => RunStep.mk (stepName id) (exec id)))).success
      · simp [he]
        by_contra hno
        push_neg at hno
        have hzero := (runBuild_success_iff _).mpr (hforall.mpr hno)
        rw [hsucc] at hzero
        exact absurd hzero (by decide)
      · simp [he]
        exact hforall.mp ((runBuild_success_iff _).mp hsucc)
    · rw [hmain]
      rcases hsucc : (runBuild ((getSteps c).map (fun id => RunStep.mk (stepName id) (exec id)))).success <;>
        simp
  · have hemp : (c.validate ape).isEmpty = false := by
      rcases hv : c.validate ape with _ | ⟨x, xs⟩
      · exact absurd hv he
      · rfl
    have hmain : mainRun c ape exec = ⟨1, []⟩ := by simp [mainRun, hemp]
    refine ⟨?_, ?_, fun _ => hmain, validate_ne_nil_iff c ape⟩
    · rw [hmain]
      simp [he]
    · rw [hmain]
      simp

/-- Witness for C10: a signed dmg configuration with no developer identity
fails validation, exits with code 1 and starts no step. -/
theorem claim10_exit_code_witness :
    mainRun
        ⟨⟨("Stream Keys"), ("com.getstreamkeys.StreamKeys"), ("dist/safari-build"),
          ⟨("Stream Keys"), ("assets/icon.icns"), ("assets/bg.png"), 128, 12⟩, 5⟩,
         ⟨(""), (""), none, none⟩,
         BuildType.dmg, true, ("/repo/apps/extension"),
         ("/repo/apps/extension/scripts/build-safari")⟩
        true (fun _ => StepOutcome.ok) = ⟨1, []⟩ :=
  (claim10_exit_code _ true (fun _ => StepOutcome.ok)).2.2.1 (by decide)

/-! ### Lemmas for the stapling retry claim -/

theorem stapleGo_attempts_le (code : Nat → Int) :
    ∀ (l : List Nat) (att : Nat) (sl : List Nat),
      (stapleGo code l att sl).attempts ≤ att + l.length := by
  intro l
  induction l with
  | nil => intro att sl; simp [stapleGo]
  | cons a rest ih =>
      intro att sl
      simp only [stapleGo]
      split
      · simp
      · split
        · calc (stapleGo code rest (att + 1) (sl ++ [RETRY_DELAY])).attempts
              ≤ (att + 1) + rest.length := ih (att + 1) (sl ++ [RETRY_DELAY])
            _ ≤ att + (a :: rest).length := by simp [Nat.add_assoc, Nat.add_comm, Nat.add_left_comm]
        · simp

/-- Claim C3: StapleStep.execute invokes the stapler at most MAX_RETRIES (5)
times; with a stapler failing on attempts 1-4 and succeeding on attempt 5,
the step ends normally after exactly 5 attempts and 5 flat 15-second sleeps
(the initial propagation wait plus 4 inter-attempt delays, no exponential
backoff); with a stapler failing on every attempt, the step raises after
exactly 5 attempts carrying the exit code of the last attempt. -/
theorem claim3_staple_retry (code : Nat → Int) :
    ((stapleExecute code).attempts ≤ MAX_RETRIES)
    ∧ ((∀ n, 1 ≤ n → n ≤ 4 → code n ≠ 0) → code 5 = 0 →
        stapleExecute code =
          ⟨5, RETRY_DELAY :: List.replicate 4 RETRY_DELAY, StapleOutcome.ok⟩)
    ∧ ((∀ n, 1 ≤ n → n ≤ 5 → code n ≠ 0) →
        stapleExecute code =
          ⟨5, RETRY_DELAY :: List.replicate 4 RETRY_DELAY, StapleOutcome.err (code 5)⟩) := by
  have hrange : (List.range MAX_RETRIES).map (fun n => n + 1) = [1, 2, 3, 4, 5] := by decide
  refine ⟨?_, ?_, ?_⟩
  · have h := stapleGo_attempts_le code ((List.range MAX_RETRIES).map (fun n => n + 1)) 0 [RETRY_DELAY]
    simpa [stapleExecute, hrange, MAX_RETRIES] using h
  · intro hf h5
    have h1 : code 1 ≠ 0 := hf 1 (by decide) (by decide)
    have h2 : code 2 ≠ 0 := hf 2 (by decide) (by decide)
    have h3 : code 3 ≠ 0 := hf 3 (by decide) (by decide)
    have h4 : code 4 ≠ 0 := hf 4 (by decide) (by decide)
    simp [stapleExecute, hrange, stapleGo, h1, h2, h3, h4, h5, MAX_RETRIES, RETRY_DELAY,
      List.replicate]
  · intro hf
    have h1 : code 1 ≠ 0 := hf 1 (by decide) (by decide)
    have h2 : code 2 ≠ 0 := hf 2 (by decide) (by decide)
    have h3 : code 3 ≠ 0 := hf 3 (by decide) (by decide)
    have h4 : code 4 ≠ 0 := hf 4 (by decide) (by decide)
    have h5 : code 5 ≠ 0 := hf 5 (by decide) (by decide)
    simp [stapleExecute, hrange, stapleGo, h1, h2, h3, h4, h5, MAX_RETRIES, RETRY_DELAY,
      List.replicate]

/-- Witness for C3 with a stapler that succeeds only on the fifth attempt
and one that always exits with code 7. -/
theorem claim3_staple_retry_witness :
    stapleExecute (fun n => if n = 5 then 0 else 1) =
      ⟨5, RETRY_DELAY :: List.replicate 4 RETRY_DELAY, StapleOutcome.ok⟩
    ∧ stapleExecute (fun _ => 7) =
      ⟨5, RETRY_DELAY :: List.replicate 4 RETRY_DELAY, StapleOutcome.err 7⟩ :=
  ⟨(claim3_staple_retry _).2.1
      (fun n _ hle => by
        have hn : n ≠ 5 := by omega
        simp [hn])
      (by decide),
   (claim3_staple_retry _).2.2 (fun n _ _ => by decide)⟩

/-! ### Lemmas about the output processor -/

theorem LF_ne_CR : LF ≠ CR := by decide

theorem BS_ne_CR : BS ≠ CR := by decide

theorem BS_ne_LF : BS ≠ LF := by decide

theorem lastIs_cons_cons (ch c c2 : Char) (t : List Char) :
    lastIs ch (c :: c2 :: t) = lastIs ch (c2 :: t) := by
  simp [lastIs, List.getLast?_cons_cons]

theorem joinLines_eq_foldr : ∀ ls : List (List Char),
    joinLines ls = ls.foldr (fun l acc => l ++ LF :: acc) [] := by
  intro ls
  induction ls with
  | nil => rfl
  | cons l ls ih =>
      cases ls with
      | nil => simp [joinLines, pyJoin]
      | cons l2 rest =>
          have h1 : joinLines (l :: l2 :: rest) = l ++ [LF] ++ (pyJoin [LF] (l2 :: rest) ++ [LF]) := by
            simp [joinLines, pyJoin, List.append_assoc]
          have h2 : joinLines (l2 :: rest) = pyJoin [LF] (l2 :: rest) ++ [LF] := by
            simp [joinLines]
          rw [List.foldr_cons, ← ih, h2, h1]
          simp [List.append_assoc]

theorem joinLines_append (l1 l2 : List (List Char)) :
    joinLines (l1 ++ l2) = joinLines l1 ++ joinLines l2 := by
  rw [joinLines_eq_foldr, joinLines_eq_foldr, joinLines_eq_foldr]
  induction l1 with
  | nil => simp
  | cons l ls ih => simp [ih, List.append_assoc]

theorem procGo_append : ∀ (n : Nat) (a b cur : List Char), a.length ≤ n →
    (lastIs CR a && headIs LF b) = false →
    procGo (a ++ b) cur =
      ((procGo a cur).1 ++ (procGo b (procGo a cur).2).1,
       (procGo b (procGo a cur).2).2) := by
  intro n
  induction n with
  | zero =>
      intro a b cur hlen hcond
      have ha : a = [] := List.eq_nil_of_length_eq_zero (Nat.le_zero.mp hlen)
      subst ha
      simp [procGo]
  | succ n ih =>
      intro a b cur hlen hcond
      match a with
      | [] => simp [procGo]
      | [c] =>
          by_cases hc : c = CR
          · subst hc
            have hb : headIs LF b = false := by
              rcases hx : headIs LF b
              · rfl
              · rw [hx] at hcond
                rw [show lastIs CR [CR] = true from by decide] at hcond
                exact absurd hcond (by decide)
            cases b with
            | nil => simp [procGo]
            | cons d bs =>
                have hd : ¬ (d = LF) := by
                  intro h
                  rw [h] at hb
                  simp [headIs] at hb
                simp [procGo, hd]
          · by_cases hl : c = LF
            · subst hl
              cases b with
              | nil => simp [procGo, LF_ne_CR]
              | cons d bs => simp [procGo, LF_ne_CR]
            · by_cases hbs : c = BS
              · subst hbs
                cases b with
                | nil => simp [procGo, BS_ne_CR, BS_ne_LF]
                | cons d bs => simp [procGo, BS_ne_CR, BS_ne_LF]
              · cases b with
                | nil => simp [procGo, hc, hl, hbs]
                | cons d bs => simp [procGo, hc, hl, hbs]
      | c :: c2 :: arest =>
          have hlen2 : (c2 :: arest).length ≤ n := by
            simp at hlen ⊢
            omega
          have hcond2 : (lastIs CR (c2 :: arest) && headIs LF b) = false := by
            rw [← lastIs_cons_cons CR c c2 arest]
            exact hcond
          by_cases hc : c = CR
          · subst hc
            by_cases h2 : c2 = LF
            · subst h2
              have harest : arest.length ≤ n := by
                simp at hlen
                omega
              have hcondr : (lastIs CR arest && headIs LF b) = false := by
                cases arest with
                | nil => simp [lastIs]
                | cons x xs =>
                    rw [← lastIs_cons_cons CR LF x xs]
                    exact hcond2
              simp only [List.cons_append, procGo, if_pos rfl, if_true, eq_self_iff_true,
                List.append_eq]
              rw [ih arest b [] harest hcondr]
            · simp only [List.cons_append, procGo, if_pos rfl, if_true, eq_self_iff_true,
                if_neg h2, List.append_eq]
              rw [← List.cons_append, ih (c2 :: arest) b [] hlen2 hcond2]
          · by_cases hl : c = LF
            · subst hl
              simp only [List.cons_append, procGo, if_neg LF_ne_CR, if_pos rfl, if_true,
                eq_self_iff_true, List.append_eq]
              rw [← List.cons_append, ih (c2 :: arest) b [] hlen2 hcond2]
            · by_cases hbs : c = BS
              · subst hbs
                simp only [List.cons_append, procGo, if_neg BS_ne_CR, if_neg BS_ne_LF,
                  if_pos rfl, if_true, eq_self_iff_true, List.append_eq]
                rw [← List.cons_append, ih (c2 :: arest) b cur.dropLast hlen2 hcond2]
              · simp only [List.cons_append, procGo, if_neg hc, if_neg hl, if_neg hbs,
                  List.append_eq]
                rw [← List.cons_append, ih (c2 :: arest) b (cur ++ [c]) hlen2 hcond2]

theorem runChunks_eq_single : ∀ (chunks : List (List Char)) (st : List Char),
    goodChunks chunks = true →
    runChunks ⟨st⟩ chunks = runChunks ⟨st⟩ [chunks.flatten] := by
  intro chunks
  induction chunks with
  | nil =>
      intro st h
      simp [runChunks, feedChunks, OutputProcessor.process, procGo, joinLines]
  | cons c cs ih =>
      intro st h
      have hparts := h
      simp only [goodChunks, Bool.and_eq_true, Bool.not_eq_true'] at hparts
      obtain ⟨hc, hcs⟩ := hparts
      have key := procGo_append c.length c cs.flatten st le_rfl hc
      have hlhs : runChunks ⟨st⟩ (c :: cs) =
          joinLines (procGo c st).1 ++ runChunks ⟨(procGo c st).2⟩ cs := by
        simp [runChunks, feedChunks, OutputProcessor.process, List.append_assoc]
      have hrhs : runChunks ⟨st⟩ [(c :: cs).flatten] =
          joinLines (procGo c st).1 ++
            (joinLines (procGo cs.flatten (procGo c st).2).1 ++
              (OutputProcessor.flush ⟨(procGo cs.flatten (procGo c st).2).2⟩).1) := by
        simp only [List.flatten_cons]
        simp [runChunks, feedChunks, OutputProcessor.process, key, joinLines_append,
          List.append_assoc]
      rw [hlhs, ih (procGo c st).2 hcs, hrhs]
      simp [runChunks, feedChunks, OutputProcessor.process, List.append_assoc]

/-- Claim C5: concrete behaviour of the output processor — carriage return
resets the line so a following write overwrites it, backspace deletes the
last buffered character and is a no-op on an empty buffer, CRLF is one
newline, a call ending in an uncommitted line returns only completed lines
(every returned text is empty or ends in a newline), and flush returns the
pending line with a newline appended while clearing the buffer. -/
theorem claim5_output_processor :
    (OutputProcessor.process ⟨[]⟩ (("a\rb\n").toList)).1 = ("b\n").toList
    ∧ (OutputProcessor.process ⟨[]⟩ (("ab\x08\n").toList)).1 = ("a\n").toList
    ∧ (OutputProcessor.process ⟨[]⟩ (("\x08x\n").toList)).1 = ("x\n").toList
    ∧ (OutputProcessor.process ⟨[]⟩ (("line1\r\nline2\n").toList)).1 = ("line1\nline2\n").toList
    ∧ OutputProcessor.process ⟨[]⟩ (("ab").toList) = (([] : List Char), ⟨("ab").toList⟩)
    ∧ OutputProcessor.flush ⟨("ab").toList⟩ = ((("ab\n").toList), ⟨[]⟩)
    ∧ (∀ (p : OutputProcessor) (text : List Char),
        (p.process text).1 = [] ∨ (p.process text).1.getLast? = some LF)
    ∧ (∀ st : List Char, OutputProcessor.flush ⟨st⟩ =
        if st.isEmpty then (([] : List Char), (⟨st⟩ : OutputProcessor))
        else (st ++ [LF], (⟨[]⟩ : OutputProcessor))) := by
  refine ⟨by decide, by decide, by decide, by decide, by decide, by decide, ?_, fun st => rfl⟩
  intro p text
  by_cases h : (procGo text p.current_line).1.isEmpty
  · left
    simp [OutputProcessor.process, joinLines, h]
  · right
    simp [OutputProcessor.process, joinLines, h, List.getLast?_concat]

/-- Counterexample to C6 as stated: splitting the stream "a\r\n" between
the carriage return and the line feed changes the total output — the
chunked run commits an empty line where the single call commits "a". -/
theorem claim6_counterexample :
    runChunks ⟨[]⟩ [("a\r").toList, ("\n").toList] = ("\n").toList
    ∧ runChunks ⟨[]⟩ [("a\r\n").toList] = ("a\n").toList
    ∧ runChunks ⟨[]⟩ [("a\r").toList, ("\n").toList] ≠
        runChunks ⟨[]⟩ [[("a\r").toList, ("\n").toList].flatten] := by
  decide

/-- Claim C6 (amended): feeding any chunking of a stream to successive
process calls followed by flush yields the same total output as one process
call on the whole stream followed by flush, provided no chunk boundary
separates a carriage return from an immediately following line feed; when a
chunk ends in CR and the rest of the stream starts with LF, the processor
instead performs a line reset followed by an empty-line commit. -/
theorem claim6_chunk_invariance (chunks : List (List Char))
    (h : goodChunks chunks = true) :
    runChunks ⟨[]⟩ chunks = runChunks ⟨[]⟩ [chunks.flatten] :=
  runChunks_eq_single chunks [] h

/-- Witness for the amended C6 on a concrete three-chunk stream whose
boundaries split lines (but never a CRLF pair). -/
theorem claim6_chunk_invariance_witness :
    goodChunks [("line1\r").toList, ("x\nline2").toList, ("\n").toList] = true
    ∧ runChunks ⟨[]⟩ [("line1\r").toList, ("x\nline2").toList, ("\n").toList] =
        runChunks ⟨[]⟩ [[("line1\r").toList, ("x\nline2").toList, ("\n").toList].flatten] :=
  ⟨by decide, claim6_chunk_invariance _ (by decide)⟩

/-! ### Lemmas about replace-all and the project-file fixups -/

theorem WRONG_cons : WRONG_BUNDLE_ID = 'c' :: WRONG_TAIL := by decide

theorem RIGHT_cons : RIGHT_BUNDLE_ID = 'c' :: RIGHT_TAIL := by decide

theorem occurs_cons (pat : List Char) (c : Char) (rest : List Char) :
    occurs pat (c :: rest) = (isPre pat (c :: rest) || occurs pat rest) := rfl

theorem isPre_nil (q : List Char) (h : isPre q [] = true) : q = [] := by
  cases q with
  | nil => rfl
  | cons a as => simp [isPre] at h

theorem isPre_append_take : ∀ (x p t : List Char), isPre p (x ++ t) = true →
    isPre (p.take x.length) x = true := by
  intro x
  induction x with
  | nil => intro p t h; simp [isPre]
  | cons b bs ih =>
      intro p t h
      cases p with
      | nil => simp [isPre]
      | cons a as =>
          simp only [List.cons_append, isPre, Bool.and_eq_true, decide_eq_true_eq] at h
          obtain ⟨hab, hrest⟩ := h
          have hih := ih as t hrest
          simp [isPre, List.length_cons, List.take_succ_cons, hab, hih]

theorem isPre_WRONG_after_RIGHT (t : List Char) :
    isPre WRONG_BUNDLE_ID (RIGHT_BUNDLE_ID ++ t) = false := by
  cases h : isPre WRONG_BUNDLE_ID (RIGHT_BUNDLE_ID ++ t) with
  | false => rfl
  | true =>
      have h2 := isPre_append_take RIGHT_BUNDLE_ID WRONG_BUNDLE_ID t h
      exact absurd h2 (by decide)

theorem occurs_append_no_c : ∀ (x t : List Char), noC x = true →
    occurs WRONG_BUNDLE_ID t = false → occurs WRONG_BUNDLE_ID (x ++ t) = false := by
  intro x
  induction x with
  | nil => intro t _ ht; simpa using ht
  | cons c0 xs ih =>
      intro t hx ht
      simp only [noC, List.all_cons, Bool.and_eq_true, decide_eq_true_eq] at hx
      obtain ⟨hc0, hxs⟩ := hx
      simp only [List.cons_append, occurs, Bool.or_eq_false_iff]
      refine ⟨?_, ih t hxs ht⟩
      have hcc : ¬ ('c' = c0) := fun hne => hc0 hne.symm
      rw [WRONG_cons]
      simp [isPre, hcc]

theorem isPre_transfer : ∀ (fuel : Nat) (rest q : List Char), noC q = true →
    isPre q (replaceAllFuel WRONG_BUNDLE_ID RIGHT_BUNDLE_ID fuel rest) = true →
    isPre q rest = true := by
  intro fuel
  induction fuel with
  | zero => intro rest q _ h; simpa [replaceAllFuel] using h
  | succ fuel ih =>
      intro rest q hq h
      cases rest with
      | nil =>
          have hnil : q = [] := isPre_nil q (by simpa [replaceAllFuel] using h)
          simp [hnil, isPre]
      | cons c0 r =>
          by_cases hpre : isPre WRONG_BUNDLE_ID (c0 :: r) = true
          · simp only [replaceAllFuel, if_pos hpre] at h
            cases q with
            | nil => simp [isPre]
            | cons qh qt =>
                rw [RIGHT_cons] at h
                simp only [List.cons_append, isPre, Bool.and_eq_true, decide_eq_true_eq] at h
                simp only [noC, List.all_cons, Bool.and_eq_true, decide_eq_true_eq] at hq
                exact absurd h.1 hq.1
          · simp only [replaceAllFuel, if_neg hpre] at h
            cases q with
            | nil => simp [isPre]
            | cons qh qt =>
                simp only [isPre, Bool.and_eq_true, decide_eq_true_eq] at h ⊢
                obtain ⟨hqc, hrest⟩ := h
                have hqt : noC qt = true := by
                  simp only [noC, List.all_cons, Bool.and_eq_true] at hq
                  exact hq.2
                exact ⟨hqc, ih r qt hqt hrest⟩

theorem no_occurs_after_replace : ∀ (fuel : Nat) (s : List Char), s.length ≤ fuel →
    occurs WRONG_BUNDLE_ID (replaceAllFuel WRONG_BUNDLE_ID RIGHT_BUNDLE_ID fuel s) = false := by
  intro fuel
  induction fuel with
  | zero =>
      intro s hlen
      have hnil : s = [] := List.eq_nil_of_length_eq_zero (Nat.le_zero.mp hlen)
      subst hnil
      decide
  | succ fuel ih =>
      intro s hlen
      cases s with
      | nil =>
          simp only [replaceAllFuel]
          decide
      | cons c0 r =>
          by_cases hpre : isPre WRONG_BUNDLE_ID (c0 :: r) = true
          · simp only [replaceAllFuel, if_pos hpre]
            have hX : occurs WRONG_BUNDLE_ID
                (replaceAllFuel WRONG_BUNDLE_ID RIGHT_BUNDLE_ID fuel
                  ((c0 :: r).drop WRONG_BUNDLE_ID.length)) = false := by
              apply ih
              have h29 : WRONG_BUNDLE_ID.length = 29 := by decide
              simp only [List.length_drop, List.length_cons, h29]
              simp only [List.length_cons] at hlen
              omega
            rw [RIGHT_cons, List.cons_append, occurs_cons, Bool.or_eq_false_iff]
            constructor
            · rw [← List.cons_append, ← RIGHT_cons]
              exact isPre_WRONG_after_RIGHT _
            · exact occurs_append_no_c RIGHT_TAIL _ (by decide) hX
          · simp only [replaceAllFuel, if_neg hpre]
            rw [occurs_cons, Bool.or_eq_false_iff]
            have hlen2 : r.length ≤ fuel := by
              simp only [List.length_cons] at hlen
              omega
            refine ⟨?_, ih r hlen2⟩
            cases hval : isPre WRONG_BUNDLE_ID
                (c0 :: replaceAllFuel WRONG_BUNDLE_ID RIGHT_BUNDLE_ID fuel r) with
            | false => rfl
            | true =>
                exfalso
                rw [WRONG_cons] at hval
                simp only [isPre, Bool.and_eq_true, decide_eq_true_eq] at hval
                obtain ⟨hc0, htail⟩ := hval
                have htr := isPre_transfer fuel r WRONG_TAIL (by decide) htail
                subst hc0
                apply hpre
                rw [WRONG_cons]
                simp [isPre, htr]

theorem replaceAllFuel_id_of_no_occurs (pat rep : List Char) :
    ∀ (fuel : Nat) (s : List Char), occurs pat s = false →
      replaceAllFuel pat rep fuel s = s := by
  intro fuel
  induction fuel with
  | zero => intro s _; rfl
  | succ fuel ih =>
      intro s h
      cases s with
      | nil => rfl
      | cons c0 r =>
          simp only [occurs, Bool.or_eq_false_iff] at h
          obtain ⟨h1, h2⟩ := h
          simp only [replaceAllFuel, if_neg (by simp [h1] : ¬ isPre pat (c0 :: r) = true)]
          rw [ih r h2]

set_option maxRecDepth 40000 in
/-- Counterexample to C4 as stated: applying the composite fixup twice to a
content equal to the App INFOPLIST_FILE anchor line differs from applying it
once — the substituted text contains the anchor it searches for, so the
second application inserts the CODE_SIGN_ENTITLEMENTS line a second time. -/
theorem claim4_counterexample :
    fixupProject (fixupProject APP_ANCHOR) ≠ fixupProject APP_ANCHOR := by
  decide

set_option maxRecDepth 40000 in
/-- Claim C4 (amended): the bundle-identifier replacement alone is
idempotent on every content, but the composite fixup f (identifier fix then
entitlement insertion) is not: on the App anchor content, one application
yields the CODE_SIGN_ENTITLEMENTS insertion and a second application
changes the content again by duplicating the insertion. -/
theorem claim4_fixup_idempotence (s : List Char) :
    fix_bundle_identifier (fix_bundle_identifier s) = fix_bundle_identifier s
    ∧ fixupProject APP_ANCHOR = APP_INSERT
    ∧ fixupProject (fixupProject APP_ANCHOR) ≠ fixupProject APP_ANCHOR := by
  refine ⟨?_, by decide, by decide⟩
  unfold fix_bundle_identifier replaceAll
  exact replaceAllFuel_id_of_no_occurs _ _ _ _ (no_occurs_after_replace s.length s le_rfl)

/-- Witness for the amended C4 at a concrete content containing the wrong
bundle identifier. -/
theorem claim4_fixup_idempotence_witness :
    fix_bundle_identifier
        (fix_bundle_identifier (("id = com.getstreamkeys.Stream-Keys;").toList)) =
      fix_bundle_identifier (("id = com.getstreamkeys.Stream-Keys;").toList)
    ∧ fixupProject APP_ANCHOR = APP_INSERT
    ∧ fixupProject (fixupProject APP_ANCHOR) ≠ fixupProject APP_ANCHOR :=
  claim4_fixup_idempotence (("id = com.getstreamkeys.Stream-Keys;").toList)

end BuildSafari
